import Mathlib

/-!
Shallow embedding of the SDV-ext-api content aggregator (source files
`app.py` and `main.py`, which contain two variants of the same pipeline).
Network calls are modelled as environment functions passed as arguments;
Python strings are Lean `String`s; Python dict fields that may be absent
are `Option`s; Python `d['k']` access, which raises `KeyError` on a
missing key, is modelled in `Except String`, while `d.get('k', default)`
is `Option.getD`.
-/

/-- Python whitespace test used by `str.strip` (space, tab, LF, CR, VT, FF). -/
def isPySpace (c : Char) : Bool :=
  c = ' ' || c = '\t' || c = '\n' || c = '\r' || c = '\x0b' || c = '\x0c'

/-- Python `str.strip` on a character list: drop whitespace from both ends. -/
def pyStripList (l : List Char) : List Char :=
  ((l.dropWhile isPySpace).reverse.dropWhile isPySpace).reverse

/-- Python `str.strip`. -/
def pyStrip (s : String) : String := ⟨pyStripList s.data⟩

/-- Tests whether the pattern `p` occurs at the head of the second list. -/
def leadsWith : List Char → List Char → Bool
  | [], _ => true
  | _ :: _, [] => false
  | p :: ps, c :: cs => p = c && leadsWith ps cs

/-- Python `str.replace(pat, rep)` for non-empty `pat`: replace every
non-overlapping occurrence, scanning left to right.  The `fuel` argument only
makes the recursion structural; `fuel` = length of the scanned list always
suffices because every step consumes at least one character.  (The source only
ever calls `replace` with the non-empty literal patterns `"d1d34p8vz63oiq"`,
`"mpd"` and `":"`.) -/
def pyReplaceAux (pat rep : List Char) : Nat → List Char → List Char
  | _, [] => []
  | 0, l => l
  | fuel+1, c :: cs =>
    if leadsWith pat (c :: cs) && !pat.isEmpty then
      rep ++ pyReplaceAux pat rep fuel (cs.drop (pat.length - 1))
    else
      c :: pyReplaceAux pat rep fuel cs

/-- Python `s.replace(pat, rep)`. -/
def pyReplace (s pat rep : String) : String :=
  ⟨pyReplaceAux pat.data rep.data s.data.length s.data⟩

/-- Python `s.split(sep, 1)`: the pieces before and after the first occurrence
of `sep`; the second piece keeps any later separators. -/
def pySplitOnce (sep : Char) : List Char → List Char × List Char
  | [] => ([], [])
  | c :: cs =>
    if c = sep then ([], cs)
    else
      let r := pySplitOnce sep cs
      (c :: r.1, r.2)

/-- Attachment record: an element of an `attachmentIds` list. -/
structure Attachment where
  baseUrl : Option String
  key : Option String
deriving DecidableEq

/-- Homework record: an element of a `homeworkIds` list. -/
structure Homework where
  topic : Option String
  attachmentIds : Option (List Attachment)
deriving DecidableEq

/-- Content record (`item`) fetched from the Platform B contents endpoint.
Only the fields the normalisation code reads are modelled. -/
structure Item where
  topic : Option String
  url : Option String
  homeworkIds : Option (List Homework)
deriving DecidableEq

/-- Python `d['k']`: a missing key raises `KeyError k`, modelled in `Except`. -/
def req {α : Type} (o : Option α) (k : String) : Except String α :=
  match o with
  | some a => Except.ok a
  | none => Except.error k

/-- One output line of the aggregator: `label: url` plus newline, exactly the
f-string `f"{label}: {url}\n"` used at every emission point of the source. -/
def line (label url : String) : String := label ++ ": " ++ url ++ "\n"

/-- URL rewrite of the `DppSolution` branch (`app.py` line 286 = `main.py`
line 202): `.replace("d1d34p8vz63oiq", "d26g5bnklkwsh4").replace("mpd",
"m3u8").strip()`. -/
def dppRewrite (u : String) : String :=
  pyStrip (pyReplace (pyReplace u "d1d34p8vz63oiq" "d26g5bnklkwsh4") "mpd" "m3u8")

/-- Lines of the `DppNotes` branch of `app.py::pw_extract_content`
(lines 279-284): one line per homework entry whose `attachmentIds` is
present and non-empty (Python truthiness of `homework.get('attachmentIds')`),
taking its first attachment; all field accesses use `.get` defaults. -/
def dppNotes_lines_app : List Homework → List String
  | [] => []
  | hw :: rest =>
    match hw.attachmentIds with
    | some (att :: _) =>
        line (hw.topic.getD "Untitled") (att.baseUrl.getD "" ++ att.key.getD "")
          :: dppNotes_lines_app rest
    | _ => dppNotes_lines_app rest

/-- Record normalisation of `app.py::pw_extract_content` (lines 269-287): the
text appended to `full_content` for one `item`, as the list of its lines, in
order.  The dispatch is the `if`/`elif` chain on `content_type`; an
unrecognised tag falls through every branch and appends nothing. -/
def pw_normalize_app (content_type : String) (item : Item) : List String :=
  if content_type = "exercises-notes-videos" then
    [line (item.topic.getD "Untitled") (pyStrip (item.url.getD ""))]
  else if content_type = "notes" then
    match item.homeworkIds with
    | some (hw :: _) =>
      match hw.attachmentIds with
      | some (att :: _) =>
          [line (hw.topic.getD "Untitled") (att.baseUrl.getD "" ++ att.key.getD "")]
      | _ => []
    | _ => []
  else if content_type = "DppNotes" then
    match item.homeworkIds with
    | some (hw :: rest) => dppNotes_lines_app (hw :: rest)
    | _ => []
  else if content_type = "DppSolution" then
    [line (item.topic.getD "Untitled") (dppRewrite (item.url.getD ""))]
  else []

/-- Lines of the `DppNotes` branch of `main.py::pw_extract_content`
(lines 195-200): as in `app.py`, except that `homework['topic']`,
`attachment['baseUrl']` and `attachment['key']` are required accesses that
raise `KeyError` when absent, aborting the whole loop. -/
def dppNotes_lines_main : List Homework → Except String (List String)
  | [] => Except.ok []
  | hw :: rest =>
    match hw.attachmentIds with
    | some (att :: _) =>
      match req hw.topic "topic" with
      | Except.error e => Except.error e
      | Except.ok t =>
        match req att.baseUrl "baseUrl" with
        | Except.error e => Except.error e
        | Except.ok b =>
          match req att.key "key" with
          | Except.error e => Except.error e
          | Except.ok k =>
            match dppNotes_lines_main rest with
            | Except.error e => Except.error e
            | Except.ok tail => Except.ok (line t (b ++ k) :: tail)
    | _ => dppNotes_lines_main rest

/-- Record normalisation of `main.py::pw_extract_content` (lines 186-203).
Unlike `app.py`, `item['topic']`, `item['url']` and the nested homework and
attachment fields are required accesses (`KeyError` when absent, modelled as
`Except.error`); field access order follows Python evaluation order (in the
`DppSolution` branch the `url` expression on line 202 is evaluated before the
f-string on line 203 reads `topic`). -/
def pw_normalize_main (content_type : String) (item : Item) :
    Except String (List String) :=
  if content_type = "exercises-notes-videos" then
    match req item.topic "topic" with
    | Except.error e => Except.error e
    | Except.ok t =>
      match req item.url "url" with
      | Except.error e => Except.error e
      | Except.ok u => Except.ok [line t (pyStrip u)]
  else if content_type = "notes" then
    match item.homeworkIds with
    | some (hw :: _) =>
      match hw.attachmentIds with
      | some (att :: _) =>
        match req hw.topic "topic" with
        | Except.error e => Except.error e
        | Except.ok t =>
          match req att.baseUrl "baseUrl" with
          | Except.error e => Except.error e
          | Except.ok b =>
            match req att.key "key" with
            | Except.error e => Except.error e
            | Except.ok k => Except.ok [line t (b ++ k)]
      | _ => Except.ok []
    | _ => Except.ok []
  else if content_type = "DppNotes" then
    match item.homeworkIds with
    | some (hw :: rest) => dppNotes_lines_main (hw :: rest)
    | _ => Except.ok []
  else if content_type = "DppSolution" then
    match req item.url "url" with
    | Except.error e => Except.error e
    | Except.ok u =>
      match req item.topic "topic" with
      | Except.error e => Except.error e
      | Except.ok t => Except.ok [line t (dppRewrite u)]
  else Except.ok []

/-- Raw batch entry of one page of `/v3/batches/my-batches` `data`.  `_id` and
`name` are required accesses in both files; the price comes from
`batch.get("feeId", {}).get("total", "Free")`, so `feeTotal` is `some t`
exactly when both `feeId` and its `total` field are present. -/
structure BatchRaw where
  bid : String
  name : String
  feeTotal : Option String
deriving DecidableEq

/-- Normalised batch dict appended to `result` by `pw_get_batches`. -/
structure Batch where
  batch_id : String
  batch_name : String
  price : String
deriving DecidableEq

/-- Result of `pw_get_batches`: the Python function returns either the string
`"TOKEN_ERROR"` or the list of collected batches. -/
inductive PwBatchesResult where
  | tokenError
  | ok (batches : List Batch)
deriving DecidableEq

/-- Lines 190-197 of `app.py` (= lines 132-140 of `main.py`): one raw batch
becomes one result dict. -/
def batchOf (b : BatchRaw) : Batch :=
  ⟨b.bid, b.name, b.feeTotal.getD "Free"⟩

/-- Pagination loop of `app.py::pw_get_batches` (lines 163-197).  `pages n` is
the upstream response for page `n`, as HTTP status and parsed `data` list.
Returns the result together with the list of page numbers actually requested.
`fuel` is the number of pages the `if page > 10: break` cap still allows, so
the loop body runs for pages `page, page+1, ...` until the cap, a 401, another
non-200 status, or an empty `data` list stops it; at `fuel = 0` the cap fires
before any request and the collected `result` is returned. -/
def pw_get_batches_app_aux (pages : Nat → Nat × List BatchRaw) :
    Nat → Nat → List Batch → PwBatchesResult × List Nat
  | 0, _, acc => (.ok acc, [])
  | fuel+1, page, acc =>
    let resp := pages page
    if resp.1 = 401 then (.tokenError, [page])
    else if resp.1 ≠ 200 then (.ok acc, [page])
    else if resp.2.isEmpty then (.ok acc, [page])
    else
      let r := pw_get_batches_app_aux pages fuel (page + 1) (acc ++ resp.2.map batchOf)
      (r.1, page :: r.2)

/-- Whole run of `app.py::pw_get_batches`: pages start at 1 and at most 10 are
requested. -/
def pw_get_batches_app (pages : Nat → Nat × List BatchRaw) :
    PwBatchesResult × List Nat :=
  pw_get_batches_app_aux pages 10 1 []

/-- Fuel-indexed semantics of the pagination loop of
`main.py::pw_get_batches` (lines 116-140), which has NO page cap
(`itertools.count(1)` with no bound check): result `none` means the loop is
still running after `fuel` page requests.  A 401 raises `ValueError`, caught
on line 141 and turned into `"TOKEN_ERROR"`; the second component is the list
of page numbers requested within the first `fuel` iterations. -/
def pw_get_batches_main_aux (pages : Nat → Nat × List BatchRaw) :
    Nat → Nat → List Batch → Option PwBatchesResult × List Nat
  | 0, _, _ => (none, [])
  | fuel+1, page, acc =>
    let resp := pages page
    if resp.1 = 401 then (some .tokenError, [page])
    else if resp.1 ≠ 200 then (some (.ok acc), [page])
    else if resp.2.isEmpty then (some (.ok acc), [page])
    else
      let r := pw_get_batches_main_aux pages fuel (page + 1) (acc ++ resp.2.map batchOf)
      (r.1, page :: r.2)

/-- Subject entry of the batch details call (`pw_get_subjects`): the code
reads `subject["_id"]` and `subject["subject"]`. -/
structure Subject where
  sid : String
  sname : String
deriving DecidableEq

/-- Subject header appended on `app.py` line 253 (= `main.py` line 178):
`f"\n\n=== Subject: {subject_name} ===\n\n"`. -/
def subjHeader (n : String) : String :=
  "\n\n=== Subject: " ++ n ++ " ===\n\n"

/-- Text appended to `full_content` by the inner `for item in subject_data`
loop of `app.py::pw_extract_content` for one page, folded item by item as the
Python `+=` does. -/
def pw_page_fold_app (content_type : String) (data : List Item) (acc : String) :
    String :=
  data.foldl (fun a it => a ++ String.join (pw_normalize_app content_type it)) acc

/-- Per-subject pagination loop of `app.py::pw_extract_content`
(lines 255-289): pages from 1, stopping at the `if page > 30: break` cap
(`fuel` = pages the cap still allows) or at the first page whose fetched
`subject_data` is empty (`pw_get_batch_contents` returns `[]` on any non-200
status or exception, so `contents n` is the data list for page `n`).  Returns
the grown buffer and the list of page numbers requested. -/
def pw_subject_loop_app (contents : Nat → List Item) (content_type : String) :
    Nat → Nat → String → String × List Nat
  | 0, _, acc => (acc, [])
  | fuel+1, page, acc =>
    let d := contents page
    if d.isEmpty then (acc, [page])
    else
      let r := pw_subject_loop_app contents content_type fuel (page + 1)
        (pw_page_fold_app content_type d acc)
      (r.1, page :: r.2)

/-- Buffer built by `app.py::pw_extract_content` (lines 249-291): for each
subject in order, the header is appended and then the subject's page loop
runs on the already-accumulated buffer. -/
def pw_extract_buffer_app (contents : String → Nat → List Item)
    (content_type : String) (subs : List Subject) : String :=
  subs.foldl
    (fun acc s =>
      (pw_subject_loop_app (contents s.sid) content_type 30 1
        (acc ++ subjHeader s.sname)).1)
    ""

/-- Whole `app.py::pw_extract_content` (lines 237-307) minus the network:
`subs` is what `pw_get_subjects` returned (it returns `[]` on any failure),
`contents sid n` the `data` of page `n` for subject `sid`.  Result: the value
returned (`some` file path or the `None` sentinel) and the list of
`(path, text)` file writes performed. -/
def pw_extract_content_app (contents : String → Nat → List Item)
    (content_type : String) (subs : List Subject) (batch_id : String) :
    Option String × List (String × String) :=
  if subs.isEmpty then (none, [])
  else
    let buf := pw_extract_buffer_app contents content_type subs
    if buf = "" then (none, [])
    else
      let path := "PW_" ++ batch_id ++ "_" ++ content_type ++ ".txt"
      (some path, [(path, buf)])

/-- Text appended by the inner `for item in subject_data` loop of
`main.py::pw_extract_content` (lines 186-203) for one page: a `KeyError`
raised while normalising a record aborts the whole extraction (there is no
enclosing `try` in `main.py`), so the fold lives in `Except`. -/
def pw_page_fold_main (content_type : String) :
    List Item → String → Except String String
  | [], acc => Except.ok acc
  | it :: rest, acc =>
    match pw_normalize_main content_type it with
    | Except.error e => Except.error e
    | Except.ok ls => pw_page_fold_main content_type rest (acc ++ String.join ls)

/-- Fuel-indexed semantics of the per-subject `while True` loop of
`main.py::pw_extract_content` (lines 180-205), which has NO page cap:
`(none, reqs)` means the loop is still running after `fuel` page requests,
`some (Except.error e)` that a `KeyError` escaped, `some (Except.ok buf)` that
the loop stopped at an empty page with buffer `buf`.  The second component is
the list of page numbers requested within the first `fuel` iterations. -/
def pw_subject_loop_main (contents : Nat → List Item) (content_type : String) :
    Nat → Nat → String → Option (Except String String) × List Nat
  | 0, _, _ => (none, [])
  | fuel+1, page, acc =>
    let d := contents page
    if d.isEmpty then (some (Except.ok acc), [page])
    else
      match pw_page_fold_main content_type d acc with
      | Except.error e => (some (Except.error e), [page])
      | Except.ok acc2 =>
        let r := pw_subject_loop_main contents content_type fuel (page + 1) acc2
        (r.1, page :: r.2)

/-- Buffer built by `main.py::pw_extract_content` over the subject list
(lines 175-205); each subject's loop gets the same per-subject fuel. -/
def pw_extract_buffer_main (contents : String → Nat → List Item)
    (content_type : String) (fuel : Nat) :
    List Subject → String → Option (Except String String)
  | [], acc => some (Except.ok acc)
  | s :: rest, acc =>
    match (pw_subject_loop_main (contents s.sid) content_type fuel 1
        (acc ++ subjHeader s.sname)).1 with
    | none => none
    | some (Except.error e) => some (Except.error e)
    | some (Except.ok acc2) =>
        pw_extract_buffer_main contents content_type fuel rest acc2

/-- Whole `main.py::pw_extract_content` (lines 166-215): `none` = the
uncapped pagination is still running after the given per-subject fuel;
`some (Except.error e)` = an uncaught `KeyError` escaped (no file written, no
value returned); `some (Except.ok (res, writes))` = normal completion with
returned value `res` and the file writes performed. -/
def pw_extract_content_main (contents : String → Nat → List Item)
    (content_type : String) (subs : List Subject) (batch_id : String)
    (fuel : Nat) :
    Option (Except String (Option String × List (String × String))) :=
  if subs.isEmpty then some (Except.ok (none, []))
  else
    match pw_extract_buffer_main contents content_type fuel subs "" with
    | none => none
    | some (Except.error e) => some (Except.error e)
    | some (Except.ok buf) =>
      if buf = "" then some (Except.ok (none, []))
      else
        let path := "PW_" ++ batch_id ++ "_" ++ content_type ++ ".txt"
        some (Except.ok (some path, [(path, buf)]))

/-- Video entry of a lesson detail response (`kgs_extract_content`). -/
structure Video where
  vname : Option String
  video_url : Option String
deriving DecidableEq

/-- Environment of `kgs_extract_content`: status of the lessons call, the
lesson ids, and the per-lesson detail fetch — `none` models a skipped lesson
(non-200 detail status, or any exception inside the per-lesson `try`),
`some vs` the `videos` list (`lesson_data.get("videos", [])`). -/
structure KgsEnv where
  lessonsStatus : Nat
  lessons : List String
  detail : String → Option (List Video)

/-- Inner `for video in videos` loop of `kgs_extract_content` (`app.py`
lines 126-130 = `main.py` lines 85-89): the title is the video name with
every `':'` replaced by `' '`, and videos whose `video_url` is absent or
empty (falsy) are skipped. -/
def kgs_video_fold (vs : List Video) (acc : String) : String :=
  vs.foldl
    (fun a v =>
      let url := v.video_url.getD ""
      if url = "" then a
      else a ++ line (pyReplace (v.vname.getD "Untitled") ":" " ") url)
    acc

/-- Buffer built by `kgs_extract_content` over the lessons. -/
def kgs_buffer (env : KgsEnv) : String :=
  env.lessons.foldl
    (fun acc lid =>
      match env.detail lid with
      | none => acc
      | some vs => kgs_video_fold vs acc)
    ""

/-- Whole `app.py::kgs_extract_content` (lines 89-149) minus the network
(the `main.py` variant differs only in logging): returned value (`some` file
path, modelled as the file name, or the `None` sentinel) and the `(path,
text)` file writes performed. -/
def kgs_extract_content (env : KgsEnv) (batch_id : String) :
    Option String × List (String × String) :=
  if env.lessonsStatus ≠ 200 then (none, [])
  else
    let buf := kgs_buffer env
    if buf = "" then (none, [])
    else
      let path := "KGS_" ++ batch_id ++ ".txt"
      (some path, [(path, buf)])

/-- Credential handling of the KGS endpoints (`app.py` lines 362-367 =
`main.py` lines 242-247): if the credential string contains `'*'` it is split
at the first `'*'` by `credentials.split('*', 1)` and
`kgs_login_with_credentials` (modelled by `login`, returning `some` token or
`None`) is called once; otherwise the string itself becomes the token.
Returns the resulting `token` variable and the list of `(user_id, password)`
login calls performed. -/
def kgs_resolve_token (login : String → String → Option String)
    (credentials : String) : Option String × List (String × String) :=
  if credentials.data.contains '*' then
    let r := pySplitOnce '*' credentials.data
    (login ⟨r.1⟩ ⟨r.2⟩, [(⟨r.1⟩, ⟨r.2⟩)])
  else (some credentials, [])

/-- Consecutive non-empty content pages actually traversed for one subject:
the page data lists in fetch order, starting at `page`, while `fuel` pages
remain before the cap (for `main.py`, within the step budget). -/
def visitedPages (contents : Nat → List Item) : Nat → Nat → List (List Item)
  | 0, _ => []
  | fuel+1, page =>
    let d := contents page
    if d.isEmpty then []
    else d :: visitedPages contents fuel (page + 1)

/-- Modelled from the spec's line-order invariant, for comparison with the
accumulating implementation: the `app.py` extraction output as a flat list —
for each subject in order its header, then for each visited page in ascending
page order the lines of its records in in-page order. -/
def pw_lines_spec_app (contents : String → Nat → List Item)
    (content_type : String) (subs : List Subject) : List String :=
  subs.flatMap (fun s =>
    subjHeader s.sname ::
      (visitedPages (contents s.sid) 30 1).flatMap (fun pg =>
        pg.flatMap (pw_normalize_app content_type)))

/-- Text one record contributes in `main.py` when its normalisation
succeeds. -/
def mainItemText (content_type : String) (it : Item) : String :=
  match pw_normalize_main content_type it with
  | Except.ok ls => String.join ls
  | Except.error _ => ""

/-- Modelled from the spec's line-order invariant, `main.py` side: header of
each subject in order, then the per-record text chunks in page order and
in-page record order. -/
def pw_chunks_spec_main (contents : String → Nat → List Item)
    (content_type : String) (fuel : Nat) (subs : List Subject) : List String :=
  subs.flatMap (fun s =>
    subjHeader s.sname ::
      (visitedPages (contents s.sid) fuel 1).flatMap (fun pg =>
        pg.map (mainItemText content_type)))

theorem strJoin_nil : String.join [] = "" := rfl

theorem strJoin_cons (a : String) (l : List String) :
    String.join (a :: l) = a ++ String.join l := by
  apply String.ext
  simp [String.join_eq, String.data_append]

theorem strJoin_append (l₁ l₂ : List String) :
    String.join (l₁ ++ l₂) = String.join l₁ ++ String.join l₂ := by
  apply String.ext
  simp [String.join_eq, String.data_append]

theorem subjHeader_append_ne_empty (n t : String) : subjHeader n ++ t ≠ "" := by
  intro h
  have hd := congrArg String.data h
  simp [String.data_append, subjHeader] at hd

theorem pw_page_fold_app_eq (ct : String) (d : List Item) (acc : String) :
    pw_page_fold_app ct d acc =
      acc ++ String.join (d.flatMap (pw_normalize_app ct)) := by
  induction d generalizing acc with
  | nil => simp [pw_page_fold_app, strJoin_nil, String.append_empty]
  | cons it rest ih =>
    show pw_page_fold_app ct rest (acc ++ String.join (pw_normalize_app ct it)) = _
    rw [ih, List.flatMap_cons, strJoin_append, String.append_assoc]

theorem pw_subject_loop_app_fst (contents : Nat → List Item) (ct : String) :
    ∀ (fuel page : Nat) (acc : String),
      (pw_subject_loop_app contents ct fuel page acc).1 =
        acc ++ String.join ((visitedPages contents fuel page).flatMap
          (fun pg => pg.flatMap (pw_normalize_app ct)))
  | 0, page, acc => by
      simp [pw_subject_loop_app, visitedPages, strJoin_nil, String.append_empty]
  | fuel+1, page, acc => by
      simp only [pw_subject_loop_app, visitedPages]
      by_cases h : (contents page).isEmpty
      · simp [h, strJoin_nil, String.append_empty]
      · simp only [h, if_neg, Bool.false_eq_true, not_false_iff]
        rw [pw_subject_loop_app_fst contents ct fuel (page + 1)
          (pw_page_fold_app ct (contents page) acc)]
        rw [pw_page_fold_app_eq, List.flatMap_cons, strJoin_append,
          String.append_assoc]

theorem pw_extract_buffer_app_fold (contents : String → Nat → List Item)
    (ct : String) :
    ∀ (subs : List Subject) (acc : String),
      List.foldl
        (fun a s =>
          (pw_subject_loop_app (contents s.sid) ct 30 1
            (a ++ subjHeader s.sname)).1)
        acc subs
      = acc ++ String.join (pw_lines_spec_app contents ct subs)
  | [], acc => by simp [pw_lines_spec_app, strJoin_nil, String.append_empty]
  | s :: rest, acc => by
      rw [List.foldl_cons, pw_subject_loop_app_fst,
        pw_extract_buffer_app_fold contents ct rest]
      simp only [pw_lines_spec_app, List.flatMap_cons, strJoin_append,
        strJoin_cons, String.append_assoc]

theorem pw_extract_buffer_app_eq (contents : String → Nat → List Item)
    (ct : String) (subs : List Subject) :
    pw_extract_buffer_app contents ct subs =
      String.join (pw_lines_spec_app contents ct subs) := by
  rw [pw_extract_buffer_app, pw_extract_buffer_app_fold contents ct subs "",
    String.empty_append]

theorem pw_page_fold_main_ok (ct : String) :
    ∀ (d : List Item) (acc acc2 : String),
      pw_page_fold_main ct d acc = Except.ok acc2 →
      acc2 = acc ++ String.join (d.map (mainItemText ct))
  | [], acc, acc2 => by
      intro h
      simp only [pw_page_fold_main, Except.ok.injEq] at h
      simp [← h, strJoin_nil, String.append_empty]
  | it :: rest, acc, acc2 => by
      intro h
      simp only [pw_page_fold_main] at h
      cases hn : pw_normalize_main ct it with
      | error e => rw [hn] at h; exact absurd h (by simp)
      | ok ls =>
          rw [hn] at h
          rw [pw_page_fold_main_ok ct rest (acc ++ String.join ls) acc2 h]
          simp [mainItemText, hn, strJoin_cons, String.append_assoc]

theorem pw_subject_loop_main_ok (contents : Nat → List Item) (ct : String) :
    ∀ (fuel page : Nat) (acc buf : String),
      (pw_subject_loop_main contents ct fuel page acc).1 =
        some (Except.ok buf) →
      buf = acc ++ String.join ((visitedPages contents fuel page).flatMap
        (fun pg => pg.map (mainItemText ct)))
  | 0, page, acc, buf => by
      intro h
      simp [pw_subject_loop_main] at h
  | fuel+1, page, acc, buf => by
      intro h
      simp only [pw_subject_loop_main, visitedPages] at h ⊢
      by_cases hd : (contents page).isEmpty
      · simp only [hd, if_pos] at h ⊢
        simp only [Option.some.injEq, Except.ok.injEq] at h
        simp [← h, strJoin_nil, String.append_empty]
      · simp only [hd, if_neg, Bool.false_eq_true, not_false_iff] at h ⊢
        cases hf : pw_page_fold_main ct (contents page) acc with
        | error e => rw [hf] at h; exact absurd h (by simp)
        | ok acc2 =>
            rw [hf] at h
            rw [pw_subject_loop_main_ok contents ct fuel (page + 1) acc2 buf h,
              pw_page_fold_main_ok ct (contents page) acc acc2 hf]
            simp [List.flatMap_cons, strJoin_append, String.append_assoc]

theorem pw_extract_buffer_main_ok (contents : String → Nat → List Item)
    (ct : String) (fuel : Nat) :
    ∀ (subs : List Subject) (acc buf : String),
      pw_extract_buffer_main contents ct fuel subs acc =
        some (Except.ok buf) →
      buf = acc ++ String.join (pw_chunks_spec_main contents ct fuel subs)
  | [], acc, buf => by
      intro h
      simp only [pw_extract_buffer_main, Option.some.injEq,
        Except.ok.injEq] at h
      simp [← h, pw_chunks_spec_main, strJoin_nil, String.append_empty]
  | s :: rest, acc, buf => by
      intro h
      simp only [pw_extract_buffer_main] at h
      cases hl : (pw_subject_loop_main (contents s.sid) ct fuel 1
          (acc ++ subjHeader s.sname)).1 with
      | none => rw [hl] at h; exact absurd h (by simp)
      | some r =>
          rw [hl] at h
          cases r with
          | error e => exact absurd h (by simp)
          | ok acc2 =>
              rw [pw_extract_buffer_main_ok contents ct fuel rest acc2 buf h,
                pw_subject_loop_main_ok (contents s.sid) ct fuel 1
                  (acc ++ subjHeader s.sname) acc2 hl]
              simp [pw_chunks_spec_main, List.flatMap_cons, strJoin_append,
                strJoin_cons, String.append_assoc]

theorem pw_get_batches_app_aux_reqs_le (pages : Nat → Nat × List BatchRaw) :
    ∀ (fuel page : Nat) (acc : List Batch),
      (pw_get_batches_app_aux pages fuel page acc).2.length ≤ fuel
  | 0, _, _ => by simp [pw_get_batches_app_aux]
  | fuel+1, page, acc => by
      simp only [pw_get_batches_app_aux]
      by_cases h1 : (pages page).1 = 401
      · simp [h1]
      · by_cases h2 : (pages page).1 = 200
        · by_cases h3 : (pages page).2.isEmpty
          · simp [h1, h2, h3]
          · have := pw_get_batches_app_aux_reqs_le pages fuel (page + 1)
              (acc ++ (pages page).2.map batchOf)
            simp [h1, h2, h3]
            omega
        · simp [h1, h2]

theorem pw_subject_loop_app_reqs_le (contents : Nat → List Item) (ct : String) :
    ∀ (fuel page : Nat) (acc : String),
      (pw_subject_loop_app contents ct fuel page acc).2.length ≤ fuel
  | 0, _, _ => by simp [pw_subject_loop_app]
  | fuel+1, page, acc => by
      simp only [pw_subject_loop_app]
      by_cases h : (contents page).isEmpty
      · simp [h]
      · simp only [h, if_neg, Bool.false_eq_true, not_false_iff,
          List.length_cons]
        have := pw_subject_loop_app_reqs_le contents ct fuel (page + 1)
          (pw_page_fold_app ct (contents page) acc)
        omega

theorem pw_get_batches_main_never_stops (pages : Nat → Nat × List BatchRaw)
    (h : ∀ n, (pages n).1 = 200 ∧ (pages n).2.isEmpty = false) :
    ∀ (fuel page : Nat) (acc : List Batch),
      (pw_get_batches_main_aux pages fuel page acc).1 = none ∧
      (pw_get_batches_main_aux pages fuel page acc).2.length = fuel
  | 0, _, _ => by simp [pw_get_batches_main_aux]
  | fuel+1, page, acc => by
      have h1 := (h page).1
      have h2 := (h page).2
      simp only [pw_get_batches_main_aux, h1, h2]
      norm_num
      exact pw_get_batches_main_never_stops pages h fuel (page + 1)
        (acc ++ (pages page).2.map batchOf)

theorem pw_subject_loop_main_never_stops (contents : Nat → List Item)
    (ct : String) (hne : ∀ n, (contents n).isEmpty = false)
    (hok : ∀ (n : Nat) (acc : String),
      ∃ a2, pw_page_fold_main ct (contents n) acc = Except.ok a2) :
    ∀ (fuel page : Nat) (acc : String),
      (pw_subject_loop_main contents ct fuel page acc).1 = none ∧
      (pw_subject_loop_main contents ct fuel page acc).2.length = fuel
  | 0, _, _ => by simp [pw_subject_loop_main]
  | fuel+1, page, acc => by
      obtain ⟨a2, hf⟩ := hok page acc
      simp only [pw_subject_loop_main, hne page, hf]
      norm_num
      exact pw_subject_loop_main_never_stops contents ct hne hok fuel
        (page + 1) a2

theorem pw_get_batches_app_aux_401 (pages : Nat → Nat × List BatchRaw) :
    ∀ (j fuel page : Nat) (acc : List Batch),
      (∀ p ∈ List.range' page j,
        (pages p).1 = 200 ∧ (pages p).2.isEmpty = false) →
      (pages (page + j)).1 = 401 → j < fuel →
      (pw_get_batches_app_aux pages fuel page acc).1 =
        PwBatchesResult.tokenError
  | 0, fuel, page, acc => by
      intro hpre h401 hfuel
      cases fuel with
      | zero => omega
      | succ f =>
          rw [Nat.add_zero] at h401
          simp [pw_get_batches_app_aux, h401]
  | j+1, fuel, page, acc => by
      intro hpre h401 hfuel
      cases fuel with
      | zero => omega
      | succ f =>
          have h0 := hpre page (by rw [List.range'_succ]; exact List.mem_cons_self _ _)
          simp only [pw_get_batches_app_aux, h0.1, h0.2]
          norm_num
          apply pw_get_batches_app_aux_401 pages j f (page + 1)
          · intro p hp
            exact hpre p (by rw [List.range'_succ]; exact List.mem_cons_of_mem _ hp)
          · have heq : page + (j + 1) = (page + 1) + j := by omega
            rw [heq] at h401; exact h401
          · omega

theorem pw_get_batches_app_aux_stop (pages : Nat → Nat × List BatchRaw) :
    ∀ (j fuel page : Nat) (acc : List Batch),
      (∀ p ∈ List.range' page j,
        (pages p).1 = 200 ∧ (pages p).2.isEmpty = false) →
      (pages (page + j)).1 ≠ 401 → (pages (page + j)).1 ≠ 200 → j < fuel →
      (pw_get_batches_app_aux pages fuel page acc).1 =
        PwBatchesResult.ok (acc ++ (List.range' page j).flatMap
          (fun p => (pages p).2.map batchOf))
  | 0, fuel, page, acc => by
      intro hpre h401 h200 hfuel
      cases fuel with
      | zero => omega
      | succ f =>
          rw [Nat.add_zero] at h401 h200
          simp [pw_get_batches_app_aux, h401, h200]
  | j+1, fuel, page, acc => by
      intro hpre h401 h200 hfuel
      cases fuel with
      | zero => omega
      | succ f =>
          have h0 := hpre page (by rw [List.range'_succ]; exact List.mem_cons_self _ _)
          simp only [pw_get_batches_app_aux, h0.1, h0.2]
          norm_num
          have heq : page + (j + 1) = (page + 1) + j := by omega
          rw [heq] at h401 h200
          rw [pw_get_batches_app_aux_stop pages j f (page + 1)
            (acc ++ (pages page).2.map batchOf)
            (fun p hp => hpre p
              (by rw [List.range'_succ]; exact List.mem_cons_of_mem _ hp))
            h401 h200 (by omega)]
          rw [List.range'_succ, List.flatMap_cons, List.append_assoc]

theorem pw_get_batches_main_aux_401 (pages : Nat → Nat × List BatchRaw) :
    ∀ (j fuel page : Nat) (acc : List Batch),
      (∀ p ∈ List.range' page j,
        (pages p).1 = 200 ∧ (pages p).2.isEmpty = false) →
      (pages (page + j)).1 = 401 → j < fuel →
      (pw_get_batches_main_aux pages fuel page acc).1 =
        some PwBatchesResult.tokenError
  | 0, fuel, page, acc => by
      intro hpre h401 hfuel
      cases fuel with
      | zero => omega
      | succ f =>
          rw [Nat.add_zero] at h401
          simp [pw_get_batches_main_aux, h401]
  | j+1, fuel, page, acc => by
      intro hpre h401 hfuel
      cases fuel with
      | zero => omega
      | succ f =>
          have h0 := hpre page (by rw [List.range'_succ]; exact List.mem_cons_self _ _)
          simp only [pw_get_batches_main_aux, h0.1, h0.2]
          norm_num
          apply pw_get_batches_main_aux_401 pages j f (page + 1)
          · intro p hp
            exact hpre p (by rw [List.range'_succ]; exact List.mem_cons_of_mem _ hp)
          · have heq : page + (j + 1) = (page + 1) + j := by omega
            rw [heq] at h401; exact h401
          · omega

theorem pw_get_batches_main_aux_stop (pages : Nat → Nat × List BatchRaw) :
    ∀ (j fuel page : Nat) (acc : List Batch),
      (∀ p ∈ List.range' page j,
        (pages p).1 = 200 ∧ (pages p).2.isEmpty = false) →
      (pages (page + j)).1 ≠ 401 → (pages (page + j)).1 ≠ 200 → j < fuel →
      (pw_get_batches_main_aux pages fuel page acc).1 =
        some (PwBatchesResult.ok (acc ++ (List.range' page j).flatMap
          (fun p => (pages p).2.map batchOf)))
  | 0, fuel, page, acc => by
      intro hpre h401 h200 hfuel
      cases fuel with
      | zero => omega
      | succ f =>
          rw [Nat.add_zero] at h401 h200
          simp [pw_get_batches_main_aux, h401, h200]
  | j+1, fuel, page, acc => by
      intro hpre h401 h200 hfuel
      cases fuel with
      | zero => omega
      | succ f =>
          have h0 := hpre page (by rw [List.range'_succ]; exact List.mem_cons_self _ _)
          simp only [pw_get_batches_main_aux, h0.1, h0.2]
          norm_num
          have heq : page + (j + 1) = (page + 1) + j := by omega
          rw [heq] at h401 h200
          rw [pw_get_batches_main_aux_stop pages j f (page + 1)
            (acc ++ (pages page).2.map batchOf)
            (fun p hp => hpre p
              (by rw [List.range'_succ]; exact List.mem_cons_of_mem _ hp))
            h401 h200 (by omega)]
          rw [List.range'_succ, List.flatMap_cons, List.append_assoc]

/-- Concrete raw batch used by the demonstration upstreams. -/
def demoBatchRaw : BatchRaw := ⟨"b1", "Batch 1", none⟩

/-- Upstream that answers every batch-listing page with 200 and one batch:
the listing never reaches an empty page. -/
def constBatchPages : Nat → Nat × List BatchRaw := fun _ => (200, [demoBatchRaw])

/-- Concrete record whose normalisation succeeds in both files (topic and url
present). -/
def demoItem : Item := ⟨some "T", some "u", none⟩

/-- Upstream that answers every content page with one record. -/
def constContents : Nat → List Item := fun _ => [demoItem]

/-- Claim C1 (counterexample): the claim is false on the `main.py` variant of
the pipeline, which both cited sources include.  On an upstream that keeps
returning non-empty pages, `main.py::pw_get_batches` (no `page > 10` check)
has issued 11 page requests after 11 loop iterations, and the per-subject
`while True` loop of `main.py::pw_extract_content` (no `page > 30` check) has
issued 31 — both beyond the claimed caps. -/
theorem C1_counterexample :
    10 < (pw_get_batches_main_aux constBatchPages 11 1 []).2.length ∧
    30 < (pw_subject_loop_main constContents "exercises-notes-videos"
      31 1 "").2.length := by
  constructor
  · rw [(pw_get_batches_main_never_stops constBatchPages
      (fun _ => ⟨rfl, rfl⟩) 11 1 []).2]
    omega
  · rw [(pw_subject_loop_main_never_stops constContents
      "exercises-notes-videos" (fun _ => rfl) (fun _ a => ⟨a ++ String.join [line "T" (pyStrip "u")], rfl⟩)
      31 1 "").2]
    omega

/-- Claim C1 (amended): the page caps hold in `app.py` — its `pw_get_batches`
issues at most 10 page requests and each subject's content loop in its
`pw_extract_content` at most 30, for every upstream behaviour — while the
`main.py` variants have no cap at all: on an upstream that keeps returning
non-empty pages both of its loops are still running after `fuel` iterations,
having issued exactly `fuel` page requests, for every `fuel`. -/
theorem C1_pagination_caps :
    (∀ pages : Nat → Nat × List BatchRaw,
        (pw_get_batches_app pages).2.length ≤ 10) ∧
    (∀ (contents : Nat → List Item) (ct : String) (acc : String),
        (pw_subject_loop_app contents ct 30 1 acc).2.length ≤ 30) ∧
    (∀ fuel : Nat,
        (pw_get_batches_main_aux constBatchPages fuel 1 []).1 = none ∧
        (pw_get_batches_main_aux constBatchPages fuel 1 []).2.length = fuel) ∧
    (∀ fuel : Nat,
        (pw_subject_loop_main constContents "exercises-notes-videos"
          fuel 1 "").1 = none ∧
        (pw_subject_loop_main constContents "exercises-notes-videos"
          fuel 1 "").2.length = fuel) :=
  ⟨fun pages => pw_get_batches_app_aux_reqs_le pages 10 1 [],
   fun contents ct acc => pw_subject_loop_app_reqs_le contents ct 30 1 acc,
   fun fuel => pw_get_batches_main_never_stops constBatchPages
     (fun _ => ⟨rfl, rfl⟩) fuel 1 [],
   fun fuel => pw_subject_loop_main_never_stops constContents
     "exercises-notes-videos" (fun _ => rfl) (fun _ a => ⟨a ++ String.join [line "T" (pyStrip "u")], rfl⟩) fuel 1 ""⟩

/-- Claim C3: in both files, if pages `1..j` succeed with non-empty data and
the request for page `j+1` returns 401, `pw_get_batches` returns the
`TOKEN_ERROR` sentinel, which carries none of the batches collected on the
earlier pages; if the request for page `j+1` instead returns any other
non-success status, pagination stops and the batches collected from pages
`1..j` are returned as a normal result.  (`j ≤ 9` keeps page `j+1` within
`app.py`'s cap; for `main.py` any `fuel > j` large enough for the fuelled
semantics to reach page `j+1` works.) -/
theorem C3_unauthorized_aborts (pages : Nat → Nat × List BatchRaw) (j : Nat)
    (hcap : j ≤ 9)
    (hpre : ∀ p ∈ List.range' 1 j,
      (pages p).1 = 200 ∧ (pages p).2.isEmpty = false) :
    ((pages (1 + j)).1 = 401 →
      (pw_get_batches_app pages).1 = PwBatchesResult.tokenError ∧
      ∀ fuel, j < fuel →
        (pw_get_batches_main_aux pages fuel 1 []).1 =
          some PwBatchesResult.tokenError) ∧
    ((pages (1 + j)).1 ≠ 401 → (pages (1 + j)).1 ≠ 200 →
      (pw_get_batches_app pages).1 =
        PwBatchesResult.ok ((List.range' 1 j).flatMap
          (fun p => (pages p).2.map batchOf)) ∧
      ∀ fuel, j < fuel →
        (pw_get_batches_main_aux pages fuel 1 []).1 =
          some (PwBatchesResult.ok ((List.range' 1 j).flatMap
            (fun p => (pages p).2.map batchOf)))) := by
  constructor
  · intro h401
    exact ⟨pw_get_batches_app_aux_401 pages j 10 1 [] hpre h401 (by omega),
      fun fuel hf => pw_get_batches_main_aux_401 pages j fuel 1 [] hpre h401 hf⟩
  · intro h401 h200
    constructor
    · have h := pw_get_batches_app_aux_stop pages j 10 1 [] hpre h401 h200
        (by omega)
      simpa using h
    · intro fuel hf
      have h := pw_get_batches_main_aux_stop pages j fuel 1 [] hpre h401 h200 hf
      simpa using h

/-- Upstream realising the spec scenario for C3: pages 1 and 2 succeed with
one batch each, page 3 answers 401. -/
def c3pages : Nat → Nat × List BatchRaw := fun n =>
  if n = 3 then (401, []) else (200, [demoBatchRaw])

/-- Witness for C3 at the spec's own scenario: pages 1-2 succeed, page 3 is
unauthorized, and the overall result is the token-error sentinel in both
files, not the two collected batches. -/
theorem C3_unauthorized_aborts_witness :
    (pw_get_batches_app c3pages).1 = PwBatchesResult.tokenError ∧
    (pw_get_batches_main_aux c3pages 10 1 []).1 =
      some PwBatchesResult.tokenError := by
  have h := (C3_unauthorized_aborts c3pages 2 (by omega)
    (by decide)).1 (by decide)
  exact ⟨h.1, h.2 10 (by omega)⟩

/-- Claim C2 (counterexample): the claim fails on the `main.py` variant,
which both cited sources include — for `content_type =
"exercises-notes-videos"` a record with no fields raises `KeyError 'topic'`
(`item['topic']` on line 188) instead of yielding a pair, so normalisation is
not exception-free there. -/
theorem C2_counterexample :
    pw_normalize_main "exercises-notes-videos" ⟨none, none, none⟩ =
      Except.error "topic" := rfl

/-- Claim C2 (amended): `app.py`'s normalisation never raises — every field
access has a default, so even an entirely empty record yields a well-defined
result for all four tags — and in BOTH files a record whose `homeworkIds` is
absent or empty yields zero pairs for `notes`/`DppNotes` and processing
continues; but `main.py` raises `KeyError` on records missing `topic`/`url`
(or the nested homework/attachment fields), as the counterexample shows. -/
theorem C2_missing_fields :
    (∀ item : Item, pw_normalize_app "exercises-notes-videos" item =
      [line (item.topic.getD "Untitled") (pyStrip (item.url.getD ""))]) ∧
    (∀ item : Item, pw_normalize_app "DppSolution" item =
      [line (item.topic.getD "Untitled") (dppRewrite (item.url.getD ""))]) ∧
    (∀ t u : Option String,
      pw_normalize_app "notes" ⟨t, u, none⟩ = [] ∧
      pw_normalize_app "notes" ⟨t, u, some []⟩ = [] ∧
      pw_normalize_app "DppNotes" ⟨t, u, none⟩ = [] ∧
      pw_normalize_app "DppNotes" ⟨t, u, some []⟩ = [] ∧
      pw_normalize_main "notes" ⟨t, u, none⟩ = Except.ok [] ∧
      pw_normalize_main "notes" ⟨t, u, some []⟩ = Except.ok [] ∧
      pw_normalize_main "DppNotes" ⟨t, u, none⟩ = Except.ok [] ∧
      pw_normalize_main "DppNotes" ⟨t, u, some []⟩ = Except.ok []) :=
  ⟨fun _ => rfl, fun _ => rfl,
   fun _ _ => ⟨rfl, rfl, rfl, rfl, rfl, rfl, rfl, rfl⟩⟩

/-- Claim C10: a `content_type` outside the four enumerated tags falls
through every branch of the dispatch chain in both files: zero pairs for
every record and, in `main.py`, no exception either — nothing signals the
unrecognised tag to the caller. -/
theorem C10_unknown_tag (ct : String) (item : Item)
    (h1 : ct ≠ "exercises-notes-videos") (h2 : ct ≠ "notes")
    (h3 : ct ≠ "DppNotes") (h4 : ct ≠ "DppSolution") :
    pw_normalize_app ct item = [] ∧
    pw_normalize_main ct item = Except.ok [] := by
  constructor
  · simp [pw_normalize_app, h1, h2, h3, h4]
  · simp [pw_normalize_main, h1, h2, h3, h4]

/-- Witness for C10 at the concrete unrecognised tag `"videos"`. -/
theorem C10_unknown_tag_witness :
    pw_normalize_app "videos" demoItem = [] ∧
    pw_normalize_main "videos" demoItem = Except.ok [] :=
  C10_unknown_tag "videos" demoItem (by decide) (by decide) (by decide)
    (by decide)

/-- Claim C4 (counterexample): the claim describes the rewritten url as the
result of the two substring replacements alone, but both files additionally
apply `.strip()` (`app.py` line 286, `main.py` line 202): on the record
`{topic: "Q1", url: "x.mpd "}` the emitted line is `"Q1: x.m3u8\n"`, not the
claimed `"Q1: x.m3u8 \n"` with the trailing blank kept. -/
theorem C4_counterexample :
    pw_normalize_app "DppSolution" ⟨some "Q1", some "x.mpd ", none⟩ ≠
      [line "Q1" (pyReplace (pyReplace "x.mpd " "d1d34p8vz63oiq"
        "d26g5bnklkwsh4") "mpd" "m3u8")] := by
  decide

/-- Claim C4 (amended): for `DppSolution` every record yields exactly one line
`topic: rewritten-url`, where the rewritten url replaces every occurrence of
`"d1d34p8vz63oiq"` by `"d26g5bnklkwsh4"`, then every occurrence of `"mpd"` by
`"m3u8"` (plain unconditional substring replacement), and is THEN stripped of
leading/trailing whitespace; `app.py` substitutes defaults for missing
fields, `main.py` needs topic and url present; the spec's concrete scenario
holds verbatim. -/
theorem C4_dpp_solution_rewrite :
    (∀ item : Item, pw_normalize_app "DppSolution" item =
      [line (item.topic.getD "Untitled")
        (pyStrip (pyReplace (pyReplace (item.url.getD "") "d1d34p8vz63oiq"
          "d26g5bnklkwsh4") "mpd" "m3u8"))]) ∧
    (∀ (t u : String) (hw : Option (List Homework)),
      pw_normalize_main "DppSolution" ⟨some t, some u, hw⟩ =
        Except.ok [line t (pyStrip (pyReplace (pyReplace u "d1d34p8vz63oiq"
          "d26g5bnklkwsh4") "mpd" "m3u8"))]) ∧
    pw_normalize_app "DppSolution"
        ⟨some "Q1", some "https://d1d34p8vz63oiq.foo/path.mpd", none⟩ =
      ["Q1: https://d26g5bnklkwsh4.foo/path.m3u8\n"] :=
  ⟨fun _ => rfl, fun _ _ _ => rfl, by decide⟩

theorem pw_normalize_app_notes_len (item : Item) :
    (pw_normalize_app "notes" item).length ≤ 1 := by
  obtain ⟨t, u, hw⟩ := item
  rcases hw with _ | ⟨_ | ⟨⟨ht0, ha⟩, hrest⟩⟩
  · simp [pw_normalize_app]
  · simp [pw_normalize_app]
  · rcases ha with _ | ⟨_ | ⟨a0, arest⟩⟩ <;> simp [pw_normalize_app]

theorem pw_normalize_main_notes_len (item : Item) (ls : List String)
    (h : pw_normalize_main "notes" item = Except.ok ls) : ls.length ≤ 1 := by
  obtain ⟨t, u, hw⟩ := item
  rcases hw with _ | ⟨_ | ⟨⟨ht0, ha⟩, hrest⟩⟩
  · simp [pw_normalize_main] at h
    first | simp [← h] | simp [h]
  · simp [pw_normalize_main] at h
    first | simp [← h] | simp [h]
  · rcases ha with _ | ⟨_ | ⟨⟨hb, hk⟩, arest⟩⟩
    · simp [pw_normalize_main] at h
      first | simp [← h] | simp [h]
    · simp [pw_normalize_main] at h
      first | simp [← h] | simp [h]
    · rcases ht0 with _ | tt <;> rcases hb with _ | bb <;>
        rcases hk with _ | kk <;>
        simp [pw_normalize_main, req] at h <;>
        simp [← h]

/-- Claim C5: for `content_type = "notes"` each record yields at most one
pair in both files; when `homeworkIds` is non-empty its first element is
taken and, when that homework's `attachmentIds` is non-empty, its first
attachment gives the single pair `(homework.topic, baseUrl ++ key)`; a record
with `homeworkIds = []` yields zero pairs without error in both files. -/
theorem C5_notes_first_only :
    (∀ item : Item, (pw_normalize_app "notes" item).length ≤ 1) ∧
    (∀ (item : Item) (ls : List String),
      pw_normalize_main "notes" item = Except.ok ls → ls.length ≤ 1) ∧
    (∀ (t u topt : Option String) (att : Attachment)
        (arest : List Attachment) (hrest : List Homework),
      pw_normalize_app "notes"
          ⟨t, u, some (⟨topt, some (att :: arest)⟩ :: hrest)⟩ =
        [line (topt.getD "Untitled")
          (att.baseUrl.getD "" ++ att.key.getD "")]) ∧
    (∀ (t u : Option String) (tt b k : String) (arest : List Attachment)
        (hrest : List Homework),
      pw_normalize_main "notes"
          ⟨t, u, some (⟨some tt, some (⟨some b, some k⟩ :: arest)⟩ :: hrest)⟩ =
        Except.ok [line tt (b ++ k)]) ∧
    (∀ t u : Option String,
      pw_normalize_app "notes" ⟨t, u, some []⟩ = [] ∧
      pw_normalize_main "notes" ⟨t, u, some []⟩ = Except.ok []) :=
  ⟨pw_normalize_app_notes_len, pw_normalize_main_notes_len,
   fun _ _ _ _ _ _ => rfl, fun _ _ _ _ _ _ _ => rfl, fun _ _ => ⟨rfl, rfl⟩⟩

/-- Witness for C5: a concrete record whose `main.py` normalisation succeeds
with exactly one line. -/
theorem C5_notes_first_only_witness :
    ([line "HT" ("b" ++ "k")]).length ≤ 1 :=
  C5_notes_first_only.2.1
    ⟨none, none, some [⟨some "HT", some [⟨some "b", some "k"⟩]⟩]⟩
    [line "HT" ("b" ++ "k")] rfl

/-- Claim C6: the extraction buffer is exactly the in-order concatenation of
the traversed lines — grouped by subject in subject-list order, within a
subject by ascending page number, within a page by record position — with no
reordering and no deduplication (the buffer is the plain join of the flat
list).  For `app.py` unconditionally; for `main.py` whenever its uncapped,
exception-free run completes. -/
theorem C6_line_order (contents : String → Nat → List Item) (ct : String)
    (subs : List Subject) :
    pw_extract_buffer_app contents ct subs =
      String.join (pw_lines_spec_app contents ct subs) ∧
    (∀ (fuel : Nat) (buf : String),
      pw_extract_buffer_main contents ct fuel subs "" =
        some (Except.ok buf) →
      buf = String.join (pw_chunks_spec_main contents ct fuel subs)) := by
  refine ⟨pw_extract_buffer_app_eq contents ct subs, fun fuel buf h => ?_⟩
  have hb := pw_extract_buffer_main_ok contents ct fuel subs "" buf h
  simpa using hb

/-- Witness for C6: a one-subject run of the `main.py` buffer that completes
on its first (empty) page. -/
theorem C6_line_order_witness :
    subjHeader "Math" =
      String.join (pw_chunks_spec_main (fun _ _ => []) "notes" 1
        [⟨"s1", "Math"⟩]) :=
  (C6_line_order (fun _ _ => []) "notes" [⟨"s1", "Math"⟩]).2 1
    (subjHeader "Math") rfl

theorem pySplitOnce_spec (sep : Char) :
    ∀ l : List Char, sep ∈ l →
      (pySplitOnce sep l).1 ++ sep :: (pySplitOnce sep l).2 = l ∧
      sep ∉ (pySplitOnce sep l).1
  | [] => by intro h; simp at h
  | c :: cs => by
      intro h
      by_cases hc : c = sep
      · subst hc
        simp [pySplitOnce]
      · have hcs : sep ∈ cs := by
          rcases List.mem_cons.mp h with h1 | h1
          · exact absurd h1.symm hc
          · exact h1
        have ih := pySplitOnce_spec sep cs hcs
        simp only [pySplitOnce, if_neg hc]
        refine ⟨by simpa using ih.1, ?_⟩
        simp only [List.mem_cons, not_or]
        exact ⟨fun hh => hc hh.symm, ih.2⟩

/-- Claim C7: if the credential string contains the separator `'*'`, the KGS
endpoints split it at the FIRST `'*'` into a user id (which contains no
`'*'`) and a password (the rest, later separators included) and perform
exactly one login call with that pair, whose result becomes the token; if it
contains no `'*'`, the string itself is used directly as the token and no
login call is made. -/
theorem C7_credential_split (login : String → String → Option String)
    (credentials : String) :
    (credentials.data.contains '*' = true →
      ∃ u p : String,
        credentials = u ++ "*" ++ p ∧
        u.data.contains '*' = false ∧
        kgs_resolve_token login credentials = (login u p, [(u, p)])) ∧
    (credentials.data.contains '*' = false →
      kgs_resolve_token login credentials = (some credentials, [])) := by
  constructor
  · intro h
    have hmem : '*' ∈ credentials.data := by simpa using h
    have hs := pySplitOnce_spec '*' credentials.data hmem
    refine ⟨⟨(pySplitOnce '*' credentials.data).1⟩,
      ⟨(pySplitOnce '*' credentials.data).2⟩, ?_, ?_, ?_⟩
    · apply String.ext
      simp only [String.data_append]
      simpa using hs.1.symm
    · simpa using hs.2
    · simp [kgs_resolve_token, hmem]
  · intro h
    have hmem : '*' ∉ credentials.data := by simpa using h
    simp [kgs_resolve_token, hmem]

/-- Witness for C7 at the spec's own scenario: `"9999999999*secret"` is split
and one login call is made; `"abc123token"` is used directly with no login
call. -/
theorem C7_credential_split_witness :
    (∃ u p : String, "9999999999*secret" = u ++ "*" ++ p ∧
      u.data.contains '*' = false ∧
      kgs_resolve_token (fun _ _ => some "tok") "9999999999*secret" =
        ((fun _ _ => some "tok") u p, [(u, p)])) ∧
    kgs_resolve_token (fun _ _ => some "tok") "abc123token" =
      (some "abc123token", []) :=
  ⟨(C7_credential_split (fun _ _ => some "tok") "9999999999*secret").1
      (by decide),
   (C7_credential_split (fun _ _ => some "tok") "abc123token").2 (by decide)⟩

theorem pw_buffer_app_ne_empty (contents : String → Nat → List Item)
    (ct : String) (s : Subject) (rest : List Subject) :
    pw_extract_buffer_app contents ct (s :: rest) ≠ "" := by
  rw [pw_extract_buffer_app_eq]
  simp only [pw_lines_spec_app, List.flatMap_cons, strJoin_append,
    strJoin_cons, String.append_assoc]
  exact subjHeader_append_ne_empty _ _

theorem pw_buffer_main_ne_empty (contents : String → Nat → List Item)
    (ct : String) (fuel : Nat) (s : Subject) (rest : List Subject)
    (buf : String)
    (h : pw_extract_buffer_main contents ct fuel (s :: rest) "" =
      some (Except.ok buf)) : buf ≠ "" := by
  have hb := pw_extract_buffer_main_ok contents ct fuel (s :: rest) "" buf h
  rw [String.empty_append] at hb
  rw [hb]
  simp only [pw_chunks_spec_main, List.flatMap_cons, strJoin_append,
    strJoin_cons, String.append_assoc]
  exact subjHeader_append_ne_empty _ _

/-- Claim C8: in `app.py`'s `kgs_extract_content` and `pw_extract_content`,
and in `main.py`'s `pw_extract_content` whenever its run completes, an empty
accumulated buffer at the end of traversal yields the `None` sentinel and no
file write; moreover no write that does happen ever has empty content, so an
empty output file is never created. -/
theorem C8_empty_buffer_no_file :
    (∀ (env : KgsEnv) (bid : String),
      (kgs_buffer env = "" → kgs_extract_content env bid = (none, [])) ∧
      ∀ w ∈ (kgs_extract_content env bid).2, w.2 ≠ "") ∧
    (∀ (contents : String → Nat → List Item) (ct : String)
        (subs : List Subject) (bid : String),
      (pw_extract_buffer_app contents ct subs = "" →
        pw_extract_content_app contents ct subs bid = (none, [])) ∧
      ∀ w ∈ (pw_extract_content_app contents ct subs bid).2, w.2 ≠ "") ∧
    (∀ (contents : String → Nat → List Item) (ct : String)
        (subs : List Subject) (bid : String) (fuel : Nat)
        (res : Option String × List (String × String)),
      pw_extract_content_main contents ct subs bid fuel =
        some (Except.ok res) →
      (pw_extract_buffer_main contents ct fuel subs "" =
        some (Except.ok "") → res = (none, [])) ∧
      ∀ w ∈ res.2, w.2 ≠ "") := by
  refine ⟨fun env bid => ⟨?_, ?_⟩, fun contents ct subs bid => ⟨?_, ?_⟩,
    fun contents ct subs bid fuel res h => ?_⟩
  · intro hb
    by_cases hs : env.lessonsStatus = 200
    · simp [kgs_extract_content, hs, hb]
    · simp [kgs_extract_content, hs]
  · intro w hw
    by_cases hs : env.lessonsStatus = 200
    · by_cases hb : kgs_buffer env = ""
      · simp [kgs_extract_content, hs, hb] at hw
      · simp [kgs_extract_content, hs, hb] at hw
        rw [hw]
        exact hb
    · simp [kgs_extract_content, hs] at hw
  · intro hb
    by_cases hsubs : subs.isEmpty
    · simp [pw_extract_content_app, hsubs]
    · simp [pw_extract_content_app, hsubs, hb]
  · intro w hw
    by_cases hsubs : subs.isEmpty
    · simp [pw_extract_content_app, hsubs] at hw
    · by_cases hb : pw_extract_buffer_app contents ct subs = ""
      · simp [pw_extract_content_app, hsubs, hb] at hw
      · simp [pw_extract_content_app, hsubs, hb] at hw
        rw [hw]
        exact hb
  · by_cases hsubs : subs.isEmpty
    · simp [pw_extract_content_main, hsubs] at h
      constructor
      · intro _
        simp [← h]
      · intro w hw
        rw [← h] at hw
        simp at hw
    · cases hbm : pw_extract_buffer_main contents ct fuel subs "" with
      | none => simp [pw_extract_content_main, hsubs, hbm] at h
      | some r =>
        cases r with
        | error e => simp [pw_extract_content_main, hsubs, hbm] at h
        | ok buf =>
          by_cases hbuf : buf = ""
          · simp [pw_extract_content_main, hsubs, hbm, hbuf] at h
            constructor
            · intro _
              simp [← h]
            · intro w hw
              rw [← h] at hw
              simp at hw
          · simp [pw_extract_content_main, hsubs, hbm, hbuf] at h
            constructor
            · intro hcontra
              simp at hcontra
              exact absurd hcontra hbuf
            · intro w hw
              rw [← h] at hw
              simp at hw
              rw [hw]
              exact hbuf

/-- Witness for C8: the empty KGS environment has an empty buffer, returns
the sentinel and writes nothing. -/
theorem C8_empty_buffer_no_file_witness :
    kgs_extract_content ⟨200, [], fun _ => none⟩ "B" = (none, []) :=
  (C8_empty_buffer_no_file.1 ⟨200, [], fun _ => none⟩ "B").1 rfl

/-- Contents used by the C9 counterexample: page 1 of every subject holds one
record with no fields, later pages are empty.  No fetch fails (the fetch
helper cannot raise — it returns `[]` on any error). -/
def c9contents : String → Nat → List Item :=
  fun _ n => if n = 1 then [⟨none, none, none⟩] else []

/-- Claim C9 (counterexample): the claim fails on the `main.py` variant,
which both cited sources include.  With a non-empty subject list and no fetch
raising, the record with no fields makes `item['topic']` raise an uncaught
`KeyError`: the run produces NO output file and does not return the `None`
sentinel either — it aborts with the exception. -/
theorem C9_counterexample :
    pw_extract_content_main c9contents "exercises-notes-videos"
      [⟨"s1", "Math"⟩] "B" 5 = some (Except.error "topic") := rfl

/-- Claim C9 (amended): in `app.py` (and in `main.py` whenever the run
completes without an exception) the unconditionally appended
`=== Subject: ... ===` headers make the buffer non-empty as soon as the
subject list is non-empty, so an output file is written even when zero
`(label, url)` pairs were extracted, and the `None` sentinel is returned
exactly when the fetched subject list is empty; in `main.py` a record that
makes normalisation raise `KeyError` instead aborts the whole run with no
file and no sentinel (see the counterexample). -/
theorem C9_headers_force_output (contents : String → Nat → List Item)
    (ct : String) (subs : List Subject) (bid : String) :
    ((pw_extract_content_app contents ct subs bid).1 = none ↔ subs = []) ∧
    (subs ≠ [] → (pw_extract_content_app contents ct subs bid).2 ≠ []) ∧
    (∀ (fuel : Nat) (res : Option String × List (String × String)),
      pw_extract_content_main contents ct subs bid fuel =
        some (Except.ok res) →
      ((res.1 = none ↔ subs = []) ∧ (subs ≠ [] → res.2 ≠ []))) := by
  cases subs with
  | nil =>
    refine ⟨by simp [pw_extract_content_app], by simp, fun fuel res h => ?_⟩
    simp [pw_extract_content_main] at h
    constructor
    · rw [← h]
      simp
    · simp
  | cons s rest =>
    have hne := pw_buffer_app_ne_empty contents ct s rest
    refine ⟨?_, ?_, ?_⟩
    · simp [pw_extract_content_app, hne]
    · intro _
      simp [pw_extract_content_app, hne]
    · intro fuel res h
      cases hbm : pw_extract_buffer_main contents ct fuel (s :: rest) "" with
      | none => simp [pw_extract_content_main, hbm] at h
      | some r =>
        cases r with
        | error e => simp [pw_extract_content_main, hbm] at h
        | ok buf =>
          have hbuf : buf ≠ "" :=
            pw_buffer_main_ne_empty contents ct fuel s rest buf hbm
          simp [pw_extract_content_main, hbm, hbuf] at h
          rw [← h]
          simp

/-- Witness for C9: one subject whose pages are all empty still produces a
write in `app.py`, and the completing `main.py` run returns a file path. -/
theorem C9_headers_force_output_witness :
    (pw_extract_content_app (fun _ _ => []) "notes" [⟨"s1", "Math"⟩]
      "B").2 ≠ [] ∧
    ((some ("PW_" ++ "B" ++ "_" ++ "notes" ++ ".txt"),
        [(("PW_" ++ "B" ++ "_" ++ "notes" ++ ".txt" : String),
          subjHeader "Math")]).1 = none ↔ ([⟨"s1", "Math"⟩] : List Subject) = []) :=
  ⟨(C9_headers_force_output (fun _ _ => []) "notes" [⟨"s1", "Math"⟩] "B").2.1
      (by simp),
   ((C9_headers_force_output (fun _ _ => []) "notes" [⟨"s1", "Math"⟩] "B").2.2
      1 _ rfl).1⟩
